import Mathlib

/-
Verification development for the Space Fight arcade game (game.py).

The per-frame simulation core is shallowly embedded below:
  * pygame.Rect becomes an integer rectangle (pygame stores int coords);
    `colliderect` is strict rectangle overlap.
  * Python float arithmetic is idealised as exact rational arithmetic (ℚ);
    `int(...)` truncation toward zero becomes `qtrunc`.
  * All randomness (random.randint / random.uniform / random.random in
    meteor relocation, particle sampling and shake jitter) is supplied by
    explicit oracle inputs, so every definition stays a pure function of
    its inputs.
  * pygame's event queue (pygame.event.post / pygame.event.get) becomes
    the `pendingEvents` list on the game state: events posted during a
    frame's update are drained by the event loop at the top of the next
    iteration of `run`.
  * Vector normalisation of the key-derived intent (which is irrational
    for diagonal input) is abstracted: movement takes the intent vector
    as an input, and theorems that need it hypothesise norm ≤ 1.
-/

set_option maxRecDepth 8000

namespace SpaceFight

/-! ## Configuration constants (game.py CONFIG section) -/

def WIDTH : ℤ := 900
def HEIGHT : ℤ := 500
def SHIP_W : ℤ := 80
def SHIP_H : ℤ := 60
def BULLET_W : ℤ := 10
def BULLET_H : ℤ := 5
def MAX_BULLETS : ℕ := 4

def BULLET_SPEED : ℚ := 850
def SHIP_ACCEL : ℚ := 2400
def SHIP_DRAG : ℚ := 12
def METEOR_VEL : ℚ := 70

def MAX_PARTICLES : ℕ := 400

/-- BORDER = pygame.Rect(WIDTH // 2 - 5, 0, 10, HEIGHT); its left edge. -/
def BORDER_left : ℤ := WIDTH / 2 - 5

/-- Right edge of the central border rectangle. -/
def BORDER_right : ℤ := BORDER_left + 10

/-! ## Numeric helpers -/

/-- Python `int(...)` on a real number: truncation toward zero. -/
def qtrunc (q : ℚ) : ℤ := if 0 ≤ q then ⌊q⌋ else ⌈q⌉

/-- Python `x % 360.0` on floats: floor-modulus, result in [0, 360). -/
def qmod360 (q : ℚ) : ℚ := q - 360 * ⌊q / 360⌋

/-- game.py `lerp(a, b, t) = a + (b - a) * max(0, min(1, t))`. -/
def lerp (a b t : ℚ) : ℚ := a + (b - a) * max 0 (min 1 t)

/-! ## Rectangles (pygame.Rect with integer coordinates) -/

structure Rect where
  x : ℤ
  y : ℤ
  w : ℤ
  h : ℤ
deriving DecidableEq, Repr

def Rect.left (r : Rect) : ℤ := r.x

def Rect.right (r : Rect) : ℤ := r.x + r.w

def Rect.top (r : Rect) : ℤ := r.y

def Rect.bottom (r : Rect) : ℤ := r.y + r.h

/-- pygame Rect.center (integer division by 2 on nonnegative sizes). -/
def Rect.center (r : Rect) : ℤ × ℤ := (r.x + r.w / 2, r.y + r.h / 2)

/-- pygame `a.colliderect b`: strict overlap of the two rectangles. -/
def collide (a b : Rect) : Bool :=
  decide (a.x < b.x + b.w) && decide (b.x < a.x + a.w) &&
  decide (a.y < b.y + b.h) && decide (b.y < a.y + a.h)

/-! ## Entities -/

inductive Owner where
  | yellow
  | red
deriving DecidableEq, Repr

structure Bullet where
  rect : Rect
  vel_x : ℚ
  owner : Owner
  trail : List (ℤ × ℤ) := []
  life : ℚ := 2
deriving DecidableEq, Repr

/-- Bullet.update: move horizontally by int(vel_x * dt), age, append the
new center to the trail and pop its front once the length passes 7. -/
def Bullet.update (b : Bullet) (dt : ℚ) : Bullet :=
  let r := { b.rect with x := b.rect.x + qtrunc (b.vel_x * dt) }
  let t := b.trail ++ [r.center]
  { b with rect := r, life := b.life - dt,
           trail := if t.length > 7 then t.tail else t }

/-- Bullet.is_dead: life expired or fully outside the arena horizontally. -/
def Bullet.is_dead (b : Bullet) : Bool :=
  decide (b.life ≤ 0) || decide (b.rect.right < 0) || decide (b.rect.left > WIDTH)

structure Meteor where
  rect : Rect
  vx : ℚ
  vy : ℚ
  angle : ℚ := 0
  rot_speed : ℚ := 0
deriving DecidableEq, Repr

/-- The two sequential edge-wrap checks of Meteor.update on one axis
(`x` is the low coordinate, `w` the size, `limit` the arena extent):
`if left > limit: right = 0` then `if right < 0: left = limit`. -/
def wrapCoord (x w limit : ℤ) : ℤ :=
  let x1 := if x > limit then -w else x
  if x1 + w < 0 then limit else x1

/-- Meteor.update: integrate, rotate mod 360, then the edge-wrap checks
(horizontal pair then vertical pair, exactly the source's four ifs). -/
def Meteor.update (m : Meteor) (dt : ℚ) : Meteor :=
  { m with
      rect := { m.rect with
        x := wrapCoord (m.rect.x + qtrunc (m.vx * dt)) m.rect.w WIDTH,
        y := wrapCoord (m.rect.y + qtrunc (m.vy * dt)) m.rect.h HEIGHT },
      angle := qmod360 (m.angle + m.rot_speed * dt) }

abbrev Color := ℤ × ℤ × ℤ

structure Particle where
  pos : ℚ × ℚ
  vel : ℚ × ℚ
  color : Color
  life : ℚ
  size : ℚ
  fade : Bool := true
deriving DecidableEq, Repr

def Particle.update (p : Particle) (dt : ℚ) : Particle :=
  { p with pos := (p.pos.1 + p.vel.1 * dt, p.pos.2 + p.vel.2 * dt),
           life := p.life - dt,
           size := if p.fade then max 0 (p.size - dt * 10) else p.size }

def Particle.is_dead (p : Particle) : Bool :=
  decide (p.life ≤ 0) || decide (p.size ≤ 0)

/-! ## Screen shake -/

structure ScreenShake where
  timer : ℚ := 0
  magnitude : ℚ := 0
  dirx : ℚ := 0
  diry : ℚ := 0
deriving DecidableEq, Repr

/-- ScreenShake.trigger: unconditionally reset timer, magnitude and
direction (the direction is already normalised by the caller; random
directions are oracle inputs). -/
def ScreenShake.trigger (_s : ScreenShake) (magnitude duration dx dy : ℚ) :
    ScreenShake :=
  { timer := duration, magnitude := magnitude, dirx := dx, diry := dy }

/-- ScreenShake.update: when active, decrement the timer and produce a
jittered offset whose amplitude is magnitude * max(0, t/(t+1e-6));
idle (timer ≤ 0) produces (0,0) and leaves the state unchanged.
`rx`, `ry` are the oracle values of `(random.random()-0.5)*2`. -/
def ScreenShake.update (s : ScreenShake) (dt rx ry : ℚ) :
    ScreenShake × ℤ × ℤ :=
  if 0 < s.timer then
    let t := s.timer - dt
    let pct := max 0 (t / (t + 1/1000000))
    let amp := s.magnitude * pct
    let sx := rx * amp * (6/10) + s.dirx * amp * (4/10)
    let sy := ry * amp * (6/10) + s.diry * amp * (4/10)
    ({ s with timer := t }, qtrunc sx, qtrunc sy)
  else (s, 0, 0)

/-! ## Particle spawning -/

/-- One batch of the random draws consumed per spawned particle:
(dx, dy) stands for (cos θ, sin θ) of the random angle, `u` for the
uniform(0.2, 1.0) speed factor, `lf`/`sf` for the uniform factors applied
to the requested life and size. -/
structure PRand where
  dx : ℚ
  dy : ℚ
  u : ℚ
  lf : ℚ
  sf : ℚ

def mkParticle (pos : ℤ × ℤ) (color : Color) (speed life size : ℚ)
    (r : PRand) : Particle :=
  { pos := ((pos.1 : ℚ), (pos.2 : ℚ)),
    vel := (r.dx * (r.u * speed), r.dy * (r.u * speed)),
    color := color,
    life := life * r.lf,
    size := size * r.sf }

/-- SpaceFight._spawn_particles: loop `count` times, breaking out as soon
as the live-particle total exceeds MAX_PARTICLES, otherwise appending one
freshly sampled particle. -/
def spawn_particles (ps : List Particle) (pos : ℤ × ℤ) (count : ℕ)
    (color : Color) (speed life size : ℚ) (mk : ℕ → PRand) : List Particle :=
  match count with
  | 0 => ps
  | n + 1 =>
    if ps.length > MAX_PARTICLES then ps
    else spawn_particles (ps ++ [mkParticle pos color speed life size (mk ps.length)])
      pos n color speed life size mk

/-! ## Game state and the match loop -/

/-- The two damage events posted to the pygame event queue
(YELLOW_HIT / RED_HIT). -/
inductive Ev where
  | yellowHit
  | redHit
deriving DecidableEq, Repr

/-- Keys relevant to firing (pygame.K_LCTRL / pygame.K_RCTRL / anything
else). -/
inductive Key where
  | lctrl
  | rctrl
  | other
deriving DecidableEq, Repr

/-- Events drained from the pygame queue at the top of a `run` iteration:
KEYDOWN events from the player and the damage events posted during the
previous frame's update. -/
inductive PEvent where
  | keydown (k : Key)
  | hit (e : Ev)
deriving DecidableEq, Repr

structure GameState where
  yellow_pos : ℚ × ℚ
  red_pos : ℚ × ℚ
  yellow_vel : ℚ × ℚ
  red_vel : ℚ × ℚ
  yellow_health : ℤ
  red_health : ℤ
  yellow_health_display : ℚ
  red_health_display : ℚ
  bullets : List Bullet
  meteors : List Meteor
  particles : List Particle
  shake : ScreenShake
  hit_flash : ℚ
  pendingEvents : List Ev
deriving DecidableEq, Repr

/-- SpaceFight._ship_rect. -/
def ship_rect (p : ℚ × ℚ) : Rect :=
  { x := qtrunc p.1, y := qtrunc p.2, w := SHIP_W, h := SHIP_H }

/-- SpaceFight._count_owner_bullets. -/
def count_owner_bullets (bs : List Bullet) (o : Owner) : ℕ :=
  (bs.filter (fun b => decide (b.owner = o))).length

def YELLOWc : Color := (255, 210, 70)

def REDc : Color := (235, 80, 80)

/-- Rectangle of the bullet spawned by the yellow ship:
x = int(yellow_pos.x + SHIP_W // 2), y = int(yellow_pos.y + SHIP_H // 2 -
BULLET_H // 2). -/
def yellowBulletRect (p : ℚ × ℚ) : Rect :=
  { x := qtrunc (p.1 + 40), y := qtrunc (p.2 + 28), w := BULLET_W, h := BULLET_H }

/-- Rectangle of the bullet spawned by the red ship:
x = int(red_pos.x - SHIP_W // 2 - BULLET_W). -/
def redBulletRect (p : ℚ × ℚ) : Rect :=
  { x := qtrunc (p.1 - 50), y := qtrunc (p.2 + 28), w := BULLET_W, h := BULLET_H }

/-- SpaceFight.handle_fire: each of the two key tests appends one bullet
(plus a 6-particle muzzle burst) when the owner is under MAX_BULLETS. -/
def handle_fire (mk : ℕ → PRand) (st : GameState) (key : Key) : GameState :=
  let st1 :=
    if key = Key.lctrl ∧ count_owner_bullets st.bullets Owner.yellow < MAX_BULLETS then
      let brect := yellowBulletRect st.yellow_pos
      { st with bullets := st.bullets ++ [{ rect := brect, vel_x := BULLET_SPEED, owner := Owner.yellow }],
                particles := spawn_particles st.particles brect.center 6 YELLOWc 220 (18/100) 3 mk }
    else st
  if key = Key.rctrl ∧ count_owner_bullets st1.bullets Owner.red < MAX_BULLETS then
    let brect := redBulletRect st1.red_pos
    { st1 with bullets := st1.bullets ++ [{ rect := brect, vel_x := -BULLET_SPEED, owner := Owner.red }],
               particles := spawn_particles st1.particles brect.center 6 REDc 220 (18/100) 3 mk }
  else st1

/-- One step of the `run` event loop: KEYDOWN dispatches to handle_fire;
RED_HIT / YELLOW_HIT apply the damage side effects (health floor at 0,
shake trigger, 22-particle burst at the ship center, hit flash). -/
def processEvent (mk : ℕ → PRand) (st : GameState) (e : PEvent) : GameState :=
  match e with
  | PEvent.keydown k => handle_fire mk st k
  | PEvent.hit Ev.redHit =>
      { st with red_health := max 0 (st.red_health - 1),
                shake := st.shake.trigger 10 (35/100) (-1) 0,
                particles := spawn_particles st.particles (ship_rect st.red_pos).center
                  22 (240, 80, 80) 210 (8/10) 5 mk,
                hit_flash := 9/10 }
  | PEvent.hit Ev.yellowHit =>
      { st with yellow_health := max 0 (st.yellow_health - 1),
                shake := st.shake.trigger 10 (35/100) 1 0,
                particles := spawn_particles st.particles (ship_rect st.yellow_pos).center
                  22 (255, 220, 70) 210 (8/10) 5 mk,
                hit_flash := 9/10 }

/-! ### Ship movement (acceleration, drag, integration, clamping) -/

/-- Velocity update: v += intent * SHIP_ACCEL * dt; v -= v * min(1, SHIP_DRAG * dt). -/
def velStep (v intent : ℚ × ℚ) (dt : ℚ) : ℚ × ℚ :=
  let vx := v.1 + intent.1 * SHIP_ACCEL * dt
  let vy := v.2 + intent.2 * SHIP_ACCEL * dt
  let c := min 1 (SHIP_DRAG * dt)
  (vx - vx * c, vy - vy * c)

/-- Clamp the yellow ship's position to the left area
pygame.Rect(0, 0, BORDER.left, HEIGHT). -/
def clamp_yellow (p : ℚ × ℚ) : ℚ × ℚ :=
  let x1 := if p.1 < 0 then 0 else p.1
  let x2 := if x1 + (SHIP_W : ℚ) > (BORDER_left : ℚ) then (BORDER_left : ℚ) - (SHIP_W : ℚ) else x1
  (x2, max 0 (min ((HEIGHT : ℚ) - (SHIP_H : ℚ)) p.2))

/-- Clamp the red ship's position to the right area
pygame.Rect(BORDER.right, 0, WIDTH - BORDER.right, HEIGHT). -/
def clamp_red (p : ℚ × ℚ) : ℚ × ℚ :=
  let x1 := if p.1 < (BORDER_right : ℚ) then (BORDER_right : ℚ) else p.1
  let x2 := if x1 + (SHIP_W : ℚ) > (WIDTH : ℚ) then (WIDTH : ℚ) - (SHIP_W : ℚ) else x1
  (x2, max 0 (min ((HEIGHT : ℚ) - (SHIP_H : ℚ)) p.2))

/-- Full per-frame movement of the yellow ship: velocity step, position
integration, positional clamping (velocity preserved). -/
def move_yellow (pos vel intent : ℚ × ℚ) (dt : ℚ) : (ℚ × ℚ) × (ℚ × ℚ) :=
  let v := velStep vel intent dt
  (clamp_yellow (pos.1 + v.1 * dt, pos.2 + v.2 * dt), v)

def move_red (pos vel intent : ℚ × ℚ) (dt : ℚ) : (ℚ × ℚ) × (ℚ × ℚ) :=
  let v := velStep vel intent dt
  (clamp_red (pos.1 + v.1 * dt, pos.2 + v.2 * dt), v)

/-! ### Bullet phase -/

/-- Index of the first meteor whose rect collides with `r`, mirroring the
`for m in self.meteors: ... break` search. -/
def findHit : List Meteor → Rect → Option ℕ
  | [], _ => none
  | m :: ms, r =>
    if collide m.rect r then some 0
    else (findHit ms r).map (· + 1)

/-- Relocate the meteor at index `i` to the oracle position/velocity
(random.randint positions, fresh random heading), as the bullet-meteor
branch does in place. -/
def relocAt : List Meteor → ℕ → ℤ × ℤ × ℚ × ℚ → List Meteor
  | [], _, _ => []
  | m :: ms, 0, o =>
      { m with rect := { m.rect with x := o.1, y := o.2.1 },
               vx := o.2.2.1, vy := o.2.2.2 } :: ms
  | m :: ms, n + 1, o => m :: relocAt ms n o

/-- Intermediate state threaded through the per-bullet loop of
SpaceFight.update. -/
structure BPhase where
  meteors : List Meteor
  particles : List Particle
  events : List Ev
  kept : List Bullet
deriving DecidableEq, Repr

/-- Processing of one live bullet in SpaceFight.update: advance it, then
in priority order (first match wins) check meteors, the non-owning ship,
and lifetime/bounds; only a surviving bullet is kept. -/
def bulletStep (yR rR : Rect) (dt : ℚ) (oreloc : ℤ × ℤ × ℚ × ℚ)
    (mk : ℕ → PRand) (st : BPhase) (b : Bullet) : BPhase :=
  let b1 := b.update dt
  match findHit st.meteors b1.rect with
  | some i =>
      { st with particles := spawn_particles st.particles b1.rect.center
                  18 (200, 200, 200) 160 (7/10) (19/5) mk,
                meteors := relocAt st.meteors i oreloc }
  | none =>
      if b1.owner = Owner.yellow ∧ collide rR b1.rect then
        { st with events := st.events ++ [Ev.redHit] }
      else if b1.owner = Owner.red ∧ collide yR b1.rect then
        { st with events := st.events ++ [Ev.yellowHit] }
      else if b1.is_dead then st
      else { st with kept := st.kept ++ [b1] }

/-- The whole bullet loop: fold `bulletStep` over the snapshot of the
bullet list, one relocation-oracle draw per bullet index. -/
def bulletsLoop (yR rR : Rect) (dt : ℚ) (ob : ℕ → ℤ × ℤ × ℚ × ℚ)
    (mk : ℕ → PRand) : List Bullet → ℕ → BPhase → BPhase
  | [], _, st => st
  | b :: bs, n, st => bulletsLoop yR rR dt ob mk bs (n + 1) (bulletStep yR rR dt (ob n) mk st b)

/-! ### Meteor phase -/

structure MPhase where
  done : List Meteor
  particles : List Particle
  events : List Ev
deriving DecidableEq, Repr

/-- Processing of one meteor in SpaceFight.update: advance (with wrap),
then independently check collision against each ship; each hit posts the
event, spawns a 14-particle burst at the meteor center and relocates the
meteor to an oracle position (velocity unchanged). -/
def meteorStep (yR rR : Rect) (dt : ℚ) (o1 o2 : ℤ × ℤ) (mk : ℕ → PRand)
    (st : MPhase) (m : Meteor) : MPhase :=
  let m1 := m.update dt
  let hitY := collide m1.rect yR
  let p1 := if hitY then
      spawn_particles st.particles m1.rect.center 14 (220, 120, 80) 120 (6/10) (45/10) mk
    else st.particles
  let e1 := if hitY then st.events ++ [Ev.yellowHit] else st.events
  let m2 := if hitY then { m1 with rect := { m1.rect with x := o1.1, y := o1.2 } } else m1
  let hitR := collide m2.rect rR
  let p2 := if hitR then
      spawn_particles p1 m2.rect.center 14 (220, 120, 80) 120 (6/10) (45/10) mk
    else p1
  let e2 := if hitR then e1 ++ [Ev.redHit] else e1
  let m3 := if hitR then { m2 with rect := { m2.rect with x := o2.1, y := o2.2 } } else m2
  { done := st.done ++ [m3], particles := p2, events := e2 }

def meteorsLoop (yR rR : Rect) (dt : ℚ) (om : ℕ → ℤ × ℤ) (mk : ℕ → PRand) :
    List Meteor → ℕ → MPhase → MPhase
  | [], _, st => st
  | m :: ms, n, st =>
      meteorsLoop yR rR dt om mk ms (n + 1)
        (meteorStep yR rR dt (om (2 * n)) (om (2 * n + 1)) mk st m)

/-! ### Whole-frame update and the run loop -/

/-- Per-frame external inputs: the timestep, each ship's movement intent
vector (the normalised key vector; exact normalisation of diagonal input
is irrational, so the vector itself is the input), the KEYDOWN events of
this frame, and the randomness oracles. -/
structure FrameIn where
  dt : ℚ
  yIntent : ℚ × ℚ
  rIntent : ℚ × ℚ
  keydowns : List Key
  obull : ℕ → ℤ × ℤ × ℚ × ℚ
  omet : ℕ → ℤ × ℤ
  prand : ℕ → PRand

/-- SpaceFight.update(dt): ship movement, bullet phase, meteor phase,
particle aging/pruning, hit-flash decay and health-display smoothing.
Damage events raised by the phases are appended to the pending queue,
to be drained by the event loop of the next frame. -/
def updateGame (st : GameState) (inp : FrameIn) : GameState :=
  let my := move_yellow st.yellow_pos st.yellow_vel inp.yIntent inp.dt
  let mr := move_red st.red_pos st.red_vel inp.rIntent inp.dt
  let yR := ship_rect my.1
  let rR := ship_rect mr.1
  let bp := bulletsLoop yR rR inp.dt inp.obull inp.prand st.bullets 0
    { meteors := st.meteors, particles := st.particles, events := [], kept := [] }
  let mp := meteorsLoop yR rR inp.dt inp.omet inp.prand bp.meteors 0
    { done := [], particles := bp.particles, events := bp.events }
  { st with
      yellow_pos := my.1, yellow_vel := my.2,
      red_pos := mr.1, red_vel := mr.2,
      bullets := bp.kept,
      meteors := mp.done,
      particles := (mp.particles.map (fun p => p.update inp.dt)).filter
        (fun p => !p.is_dead),
      hit_flash := max 0 (st.hit_flash - inp.dt * (5/2)),
      yellow_health_display := lerp st.yellow_health_display (st.yellow_health : ℚ)
        (min 1 (inp.dt * 6)),
      red_health_display := lerp st.red_health_display (st.red_health : ℚ)
        (min 1 (inp.dt * 6)),
      pendingEvents := st.pendingEvents ++ mp.events }

/-- One iteration of SpaceFight.run: drain the event queue (the damage
events posted last frame, then this frame's KEYDOWNs), check the winner
condition (which breaks before updating), then run update. Drawing has
no effect on this state. -/
def frame (st : GameState) (inp : FrameIn) : GameState :=
  let evs := st.pendingEvents.map PEvent.hit ++ inp.keydowns.map PEvent.keydown
  let st1 := evs.foldl (processEvent inp.prand) { st with pendingEvents := [] }
  if st1.red_health ≤ 0 ∨ st1.yellow_health ≤ 0 then st1
  else updateGame st1 inp

/-- SpaceFight.__init__ state (meteor placement is random, hence a
parameter). -/
def initState (ms : List Meteor) : GameState :=
  { yellow_pos := (120, 250), red_pos := (760, 250),
    yellow_vel := (0, 0), red_vel := (0, 0),
    yellow_health := 10, red_health := 10,
    yellow_health_display := 10, red_health_display := 10,
    bullets := [], meteors := ms, particles := [],
    shake := {}, hit_flash := 0, pendingEvents := [] }

/-- The match loop: fold `frame` over the sequence of per-frame inputs. -/
def runMatch (ms : List Meteor) (inputs : List FrameIn) : GameState :=
  inputs.foldl frame (initState ms)

/-! ## Helper lemmas -/

lemma abs_qtrunc_le (q : ℚ) : |((qtrunc q : ℤ) : ℚ)| ≤ |q| := by
  unfold qtrunc
  split_ifs with h
  · rw [abs_of_nonneg (by exact_mod_cast Int.floor_nonneg.mpr h),
        abs_of_nonneg h]
    exact Int.floor_le q
  · push_neg at h
    have hc : ⌈q⌉ ≤ 0 := Int.ceil_le.2 (by exact_mod_cast h.le)
    rw [abs_of_nonpos (by exact_mod_cast hc), abs_of_nonpos h.le]
    simpa using Int.le_ceil q

lemma updateGame_yellow_pos (st : GameState) (inp : FrameIn) :
    (updateGame st inp).yellow_pos =
      clamp_yellow (st.yellow_pos.1 + (velStep st.yellow_vel inp.yIntent inp.dt).1 * inp.dt,
        st.yellow_pos.2 + (velStep st.yellow_vel inp.yIntent inp.dt).2 * inp.dt) := rfl

lemma updateGame_red_pos (st : GameState) (inp : FrameIn) :
    (updateGame st inp).red_pos =
      clamp_red (st.red_pos.1 + (velStep st.red_vel inp.rIntent inp.dt).1 * inp.dt,
        st.red_pos.2 + (velStep st.red_vel inp.rIntent inp.dt).2 * inp.dt) := rfl

lemma castW : (SHIP_W : ℚ) = 80 := by norm_num [SHIP_W]

lemma castH : (SHIP_H : ℚ) = 60 := by norm_num [SHIP_H]

lemma castBL : (BORDER_left : ℚ) = 445 := by norm_num [BORDER_left, WIDTH]

lemma castBR : (BORDER_right : ℚ) = 455 := by norm_num [BORDER_right, BORDER_left, WIDTH]

lemma castWd : (WIDTH : ℚ) = 900 := by norm_num [WIDTH]

lemma castHt : (HEIGHT : ℚ) = 500 := by norm_num [HEIGHT]

lemma clamp_y_bounds (p2 : ℚ) :
    0 ≤ max 0 (min ((HEIGHT : ℚ) - (SHIP_H : ℚ)) p2) ∧
    max 0 (min ((HEIGHT : ℚ) - (SHIP_H : ℚ)) p2) + (SHIP_H : ℚ) ≤ (HEIGHT : ℚ) := by
  constructor
  · exact le_max_left 0 _
  · have h := max_le (show (0 : ℚ) ≤ (HEIGHT : ℚ) - (SHIP_H : ℚ) by
      rw [castH, castHt]; norm_num) (min_le_left ((HEIGHT : ℚ) - (SHIP_H : ℚ)) p2)
    linarith

lemma clamp_yellow_bounds (p : ℚ × ℚ) :
    0 ≤ (clamp_yellow p).1 ∧ (clamp_yellow p).1 + (SHIP_W : ℚ) ≤ (BORDER_left : ℚ) ∧
    0 ≤ (clamp_yellow p).2 ∧ (clamp_yellow p).2 + (SHIP_H : ℚ) ≤ (HEIGHT : ℚ) := by
  obtain ⟨hy1, hy2⟩ := clamp_y_bounds p.2
  refine ⟨?_, ?_, hy1, hy2⟩ <;>
  · unfold clamp_yellow
    rw [castW, castBL]
    dsimp only
    split_ifs <;> linarith

lemma clamp_red_bounds (p : ℚ × ℚ) :
    (BORDER_right : ℚ) ≤ (clamp_red p).1 ∧ (clamp_red p).1 + (SHIP_W : ℚ) ≤ (WIDTH : ℚ) ∧
    0 ≤ (clamp_red p).2 ∧ (clamp_red p).2 + (SHIP_H : ℚ) ≤ (HEIGHT : ℚ) := by
  obtain ⟨hy1, hy2⟩ := clamp_y_bounds p.2
  refine ⟨?_, ?_, hy1, hy2⟩ <;>
  · unfold clamp_red
    rw [castW, castBR, castWd]
    dsimp only
    split_ifs <;> linarith

/-! ## Claim theorems -/

/-- C3: after the ship-movement phase of every frame, the yellow ship's
rectangle (its position with width SHIP_W and height SHIP_H) lies inside
[0, BORDER.left] x [0, HEIGHT] and the red ship's rectangle inside
[BORDER.right, WIDTH] x [0, HEIGHT]: neither ship crosses the central
border or leaves the screen, for every prior state, velocity, intent and
timestep. -/
theorem ships_stay_in_side_regions (st : GameState) (inp : FrameIn) :
    0 ≤ (updateGame st inp).yellow_pos.1 ∧
    (updateGame st inp).yellow_pos.1 + (SHIP_W : ℚ) ≤ (BORDER_left : ℚ) ∧
    0 ≤ (updateGame st inp).yellow_pos.2 ∧
    (updateGame st inp).yellow_pos.2 + (SHIP_H : ℚ) ≤ (HEIGHT : ℚ) ∧
    (BORDER_right : ℚ) ≤ (updateGame st inp).red_pos.1 ∧
    (updateGame st inp).red_pos.1 + (SHIP_W : ℚ) ≤ (WIDTH : ℚ) ∧
    0 ≤ (updateGame st inp).red_pos.2 ∧
    (updateGame st inp).red_pos.2 + (SHIP_H : ℚ) ≤ (HEIGHT : ℚ) := by
  rw [updateGame_yellow_pos, updateGame_red_pos]
  obtain ⟨a, b, c, d⟩ := clamp_yellow_bounds
    (st.yellow_pos.1 + (velStep st.yellow_vel inp.yIntent inp.dt).1 * inp.dt,
     st.yellow_pos.2 + (velStep st.yellow_vel inp.yIntent inp.dt).2 * inp.dt)
  obtain ⟨a2, b2, c2, d2⟩ := clamp_red_bounds
    (st.red_pos.1 + (velStep st.red_vel inp.rIntent inp.dt).1 * inp.dt,
     st.red_pos.2 + (velStep st.red_vel inp.rIntent inp.dt).2 * inp.dt)
  exact ⟨a, b, c, d, a2, b2, c2, d2⟩

/-- A meteor one pixel from the right arena edge, moving right: after one
tick its unwrapped x would be 901. -/
def wrapMeteor : Meteor :=
  { rect := { x := 899, y := 100, w := 50, h := 50 }, vx := 120, vy := 0 }

/-- C7 counterexample: the wrap teleports `wrapMeteor` to x = -50, while
its unwrapped trajectory reaches x = 901, and -50 is NOT congruent to 901
modulo the arena width (850 vs 1): wrapping does not preserve position
modulo arena size. -/
theorem meteor_wrap_not_congruent :
    (wrapMeteor.update (1/60)).rect.x = -50 ∧
    wrapMeteor.rect.x + qtrunc (wrapMeteor.vx * (1/60)) = 901 ∧
    (wrapMeteor.update (1/60)).rect.x % WIDTH ≠
      (wrapMeteor.rect.x + qtrunc (wrapMeteor.vx * (1/60))) % WIDTH := by
  with_unfolding_all decide

/-- C7 amended: the edge-wrap is a teleport to a fixed flush position,
not a congruence-preserving wrap: it triggers only once the meteor has
entirely passed an arena boundary (e.g. left edge beyond WIDTH), and it
discards the overshoot, repositioning the rectangle flush against the
opposite boundary (x = -w, x = WIDTH, y = -h or y = HEIGHT respectively);
when no wrap condition holds the integrated position is kept. -/
theorem meteor_wrap_flush (m : Meteor) (dt : ℚ) :
    (m.rect.x + qtrunc (m.vx * dt) > WIDTH → (m.update dt).rect.x = -m.rect.w) ∧
    (m.rect.x + qtrunc (m.vx * dt) ≤ WIDTH →
      m.rect.x + qtrunc (m.vx * dt) + m.rect.w < 0 → (m.update dt).rect.x = WIDTH) ∧
    (m.rect.x + qtrunc (m.vx * dt) ≤ WIDTH →
      ¬(m.rect.x + qtrunc (m.vx * dt) + m.rect.w < 0) →
      (m.update dt).rect.x = m.rect.x + qtrunc (m.vx * dt)) ∧
    (m.rect.y + qtrunc (m.vy * dt) > HEIGHT → (m.update dt).rect.y = -m.rect.h) ∧
    (m.rect.y + qtrunc (m.vy * dt) ≤ HEIGHT →
      m.rect.y + qtrunc (m.vy * dt) + m.rect.h < 0 → (m.update dt).rect.y = HEIGHT) ∧
    (m.rect.y + qtrunc (m.vy * dt) ≤ HEIGHT →
      ¬(m.rect.y + qtrunc (m.vy * dt) + m.rect.h < 0) →
      (m.update dt).rect.y = m.rect.y + qtrunc (m.vy * dt)) := by
  refine ⟨?_, ?_, ?_, ?_, ?_, ?_⟩ <;>
    (intros
     simp only [Meteor.update, wrapCoord]
     split_ifs <;> omega)

/-- C7 witness: the amended wrap rule evaluated on `wrapMeteor`. -/
theorem meteor_wrap_flush_witness :
    (wrapMeteor.update (1/60)).rect.x = -wrapMeteor.rect.w :=
  (meteor_wrap_flush wrapMeteor (1/60)).1 (by with_unfolding_all decide)

/-- A neutral particle used to fill the particle list in counterexamples
and witnesses. -/
def cap_p0 : Particle :=
  { pos := (0, 0), vel := (0, 0), color := (0, 0, 0), life := 1, size := 1 }

def cap_mk : ℕ → PRand := fun _ => ⟨1, 0, 1, 1, 1⟩

/-- C9 counterexample: with exactly MAX_PARTICLES (= 400) live particles,
an emission request still appends one more particle (the source's break
condition is `len > MAX_PARTICLES`, checked before each append), so the
live total reaches 401 and the stated cap is exceeded. -/
theorem particle_cap_exceeded :
    MAX_PARTICLES <
      (spawn_particles (List.replicate 400 cap_p0) (0, 0) 22 (200, 200, 200)
        160 (7/10) (19/5) cap_mk).length := by
  with_unfolding_all decide

lemma spawn_particles_length_le (pos : ℤ × ℤ) (color : Color)
    (speed life size : ℚ) (mk : ℕ → PRand) :
    ∀ (count : ℕ) (ps : List Particle), ps.length ≤ MAX_PARTICLES + 1 →
      (spawn_particles ps pos count color speed life size mk).length ≤ MAX_PARTICLES + 1 := by
  intro count
  induction count with
  | zero => intro ps h; simpa [spawn_particles] using h
  | succ n ih =>
    intro ps h
    rw [spawn_particles]
    split_ifs with hc
    · exact h
    · apply ih
      simp only [List.length_append, List.length_singleton]
      omega

lemma spawn_particles_extends (pos : ℤ × ℤ) (color : Color)
    (speed life size : ℚ) (mk : ℕ → PRand) :
    ∀ (count : ℕ) (ps : List Particle),
      ∃ t, spawn_particles ps pos count color speed life size mk = ps ++ t := by
  intro count
  induction count with
  | zero => intro ps; exact ⟨[], by simp [spawn_particles]⟩
  | succ n ih =>
    intro ps
    rw [spawn_particles]
    split_ifs with hc
    · exact ⟨[], by simp⟩
    · obtain ⟨t, ht⟩ := ih (ps ++ [mkParticle pos color speed life size (mk ps.length)])
      exact ⟨mkParticle pos color speed life size (mk ps.length) :: t, by
        rw [ht, List.append_assoc]; simp⟩

lemma spawn_particles_full (pos : ℤ × ℤ) (color : Color)
    (speed life size : ℚ) (mk : ℕ → PRand) (count : ℕ) (ps : List Particle)
    (h : MAX_PARTICLES < ps.length) :
    spawn_particles ps pos count color speed life size mk = ps := by
  cases count with
  | zero => rw [spawn_particles]
  | succ n => rw [spawn_particles]; exact if_pos h

/-- C9 amended: the live-particle total is bounded by MAX_PARTICLES + 1
(= 401), not by MAX_PARTICLES: every emission that would push the total
past 401 is silently truncated (and once the total exceeds 400 an
emission spawns nothing at all), and emission only ever appends — the
existing particles are never evicted. -/
theorem particle_cap_plus_one :
    (∀ (ps : List Particle) (pos : ℤ × ℤ) (count : ℕ) (color : Color)
        (speed life size : ℚ) (mk : ℕ → PRand),
      ps.length ≤ MAX_PARTICLES + 1 →
      (spawn_particles ps pos count color speed life size mk).length ≤ MAX_PARTICLES + 1) ∧
    (∀ (ps : List Particle) (pos : ℤ × ℤ) (count : ℕ) (color : Color)
        (speed life size : ℚ) (mk : ℕ → PRand),
      ∃ t, spawn_particles ps pos count color speed life size mk = ps ++ t) ∧
    (∀ (ps : List Particle) (pos : ℤ × ℤ) (count : ℕ) (color : Color)
        (speed life size : ℚ) (mk : ℕ → PRand),
      MAX_PARTICLES < ps.length →
      spawn_particles ps pos count color speed life size mk = ps) :=
  ⟨fun ps pos count color speed life size mk h =>
      spawn_particles_length_le pos color speed life size mk count ps h,
   fun ps pos count color speed life size mk =>
      spawn_particles_extends pos color speed life size mk count ps,
   fun ps pos count color speed life size mk h =>
      spawn_particles_full pos color speed life size mk count ps h⟩

/-- C9 witness: the amended cap evaluated on an empty particle list. -/
theorem particle_cap_plus_one_witness :
    (spawn_particles [] (0, 0) 2 (0, 0, 0) 1 1 1 cap_mk).length ≤ MAX_PARTICLES + 1 :=
  particle_cap_plus_one.1 [] (0, 0) 2 (0, 0, 0) 1 1 1 cap_mk (by decide)

/-- C8: the screen shake is a two-state machine. Idle (timer ≤ 0) yields
offset (0,0) and an unchanged state; trigger unconditionally resets timer
and magnitude (override, not accumulate); while active an update
decrements the timer by dt (magnitude kept), and the produced offset is
bounded in absolute value by magnitude * 10^6 * (new timer) in each
component, a bound that decays to zero as the timer approaches zero; once
the timer reaches or passes 0 the idle clause applies again. -/
theorem screenshake_state_machine (s : ScreenShake) (dt rx ry m d dx dy : ℚ) :
    (s.timer ≤ 0 → s.update dt rx ry = (s, 0, 0)) ∧
    ((s.trigger m d dx dy).timer = d ∧ (s.trigger m d dx dy).magnitude = m) ∧
    (0 < s.timer → (s.update dt rx ry).1.timer = s.timer - dt ∧
      (s.update dt rx ry).1.magnitude = s.magnitude) ∧
    (0 < s.timer → 0 ≤ s.timer - dt → 0 ≤ s.magnitude →
      |rx| ≤ 1 → |ry| ≤ 1 → |s.dirx| ≤ 1 → |s.diry| ≤ 1 →
      |(((s.update dt rx ry).2.1 : ℤ) : ℚ)| ≤ s.magnitude * 1000000 * (s.timer - dt) ∧
      |(((s.update dt rx ry).2.2 : ℤ) : ℚ)| ≤ s.magnitude * 1000000 * (s.timer - dt)) := by
  refine ⟨?_, ?_, ?_, ?_⟩
  · intro h
    simp only [ScreenShake.update, if_neg (not_lt.2 h)]
  · exact ⟨rfl, rfl⟩
  · intro h
    simp [ScreenShake.update, if_pos h]
  · intro h ht hm hrx hry hdx hdy
    simp only [ScreenShake.update, if_pos h]
    set t := s.timer - dt with htdef
    have hden : 0 < t + 1/1000000 := by linarith
    have hpct1 : max 0 (t / (t + 1/1000000)) ≤ 1000000 * t := by
      apply max_le
      · linarith
      · rw [div_le_iff₀ hden]
        nlinarith [sq_nonneg t]
    set A := s.magnitude * max 0 (t / (t + 1/1000000)) with hAdef
    have hA0 : 0 ≤ A := mul_nonneg hm (le_max_left _ _)
    have hAle : A ≤ s.magnitude * 1000000 * t := by
      calc A ≤ s.magnitude * (1000000 * t) := mul_le_mul_of_nonneg_left hpct1 hm
        _ = s.magnitude * 1000000 * t := by ring
    obtain ⟨hrx1, hrx2⟩ := abs_le.mp hrx
    obtain ⟨hry1, hry2⟩ := abs_le.mp hry
    obtain ⟨hdx1, hdx2⟩ := abs_le.mp hdx
    obtain ⟨hdy1, hdy2⟩ := abs_le.mp hdy
    constructor
    · calc |((qtrunc (rx * A * (6/10) + s.dirx * A * (4/10)) : ℤ) : ℚ)|
          ≤ |rx * A * (6/10) + s.dirx * A * (4/10)| := abs_qtrunc_le _
        _ ≤ A := by
            rw [abs_le]
            constructor <;> nlinarith
        _ ≤ s.magnitude * 1000000 * t := hAle
    · calc |((qtrunc (ry * A * (6/10) + s.diry * A * (4/10)) : ℤ) : ℚ)|
          ≤ |ry * A * (6/10) + s.diry * A * (4/10)| := abs_qtrunc_le _
        _ ≤ A := by
            rw [abs_le]
            constructor <;> nlinarith
        _ ≤ s.magnitude * 1000000 * t := hAle

/-- C8 witness: the shake machine evaluated at a concrete active state. -/
theorem screenshake_state_machine_witness :
    |(((ScreenShake.update ⟨1/2, 10, 1, 0⟩ (1/4) (1/2) (-1/2)).2.1 : ℤ) : ℚ)| ≤
      (10 : ℚ) * 1000000 * (1/2 - 1/4) :=
  ((screenshake_state_machine ⟨1/2, 10, 1, 0⟩ (1/4) (1/2) (-1/2) 0 0 0 0).2.2.2
    (by norm_num) (by norm_num) (by norm_num) (by norm_num [abs_le])
    (by norm_num [abs_le]) (by norm_num [abs_le]) (by norm_num [abs_le])).1

lemma velStep_preserves (v i : ℚ × ℚ) (dt : ℚ) (hdt : 0 ≤ dt)
    (hi : i.1 ^ 2 + i.2 ^ 2 ≤ 1) (hv : v.1 ^ 2 + v.2 ^ 2 ≤ 40000) :
    (velStep v i dt).1 ^ 2 + (velStep v i dt).2 ^ 2 ≤ 40000 := by
  simp only [velStep, SHIP_ACCEL, SHIP_DRAG]
  rcases le_or_lt 1 (12 * dt) with h | h
  · rw [min_eq_left h]
    ring_nf
    norm_num
  · rw [min_eq_right h.le]
    have hi1 : 0 ≤ i.1 ^ 2 + i.2 ^ 2 := by positivity
    have hcs : (v.1 * i.1 + v.2 * i.2) ^ 2 ≤ (v.1 ^ 2 + v.2 ^ 2) * (i.1 ^ 2 + i.2 ^ 2) := by
      nlinarith [sq_nonneg (v.1 * i.2 - v.2 * i.1)]
    have hX2 : (v.1 * i.1 + v.2 * i.2) ^ 2 ≤ 40000 := by
      calc (v.1 * i.1 + v.2 * i.2) ^ 2 ≤ (v.1 ^ 2 + v.2 ^ 2) * (i.1 ^ 2 + i.2 ^ 2) := hcs
        _ ≤ 40000 * 1 := by
            apply mul_le_mul hv hi hi1 (by norm_num)
        _ = 40000 := by norm_num
    have hX : v.1 * i.1 + v.2 * i.2 ≤ 200 := by
      nlinarith [sq_nonneg (v.1 * i.1 + v.2 * i.2 - 200)]
    have hw : (v.1 + i.1 * 2400 * dt) ^ 2 + (v.2 + i.2 * 2400 * dt) ^ 2 ≤
        (200 + 2400 * dt) ^ 2 := by
      nlinarith [mul_le_mul_of_nonneg_left hX (show (0:ℚ) ≤ 4800 * dt by positivity),
        mul_le_mul_of_nonneg_left hi (show (0:ℚ) ≤ 5760000 * dt ^ 2 by positivity)]
    have hq0 : (0:ℚ) ≤ 1 - 12 * dt := by linarith
    have hs0 : (0:ℚ) ≤ 200 + 2400 * dt := by linarith
    have hqb : (1 - 12 * dt) * (200 + 2400 * dt) ≤ 200 := by nlinarith [sq_nonneg dt]
    have hqb0 : (0:ℚ) ≤ (1 - 12 * dt) * (200 + 2400 * dt) := mul_nonneg hq0 hs0
    calc (v.1 + i.1 * 2400 * dt - (v.1 + i.1 * 2400 * dt) * (12 * dt)) ^ 2 +
          (v.2 + i.2 * 2400 * dt - (v.2 + i.2 * 2400 * dt) * (12 * dt)) ^ 2
        = (1 - 12 * dt) ^ 2 *
            ((v.1 + i.1 * 2400 * dt) ^ 2 + (v.2 + i.2 * 2400 * dt) ^ 2) := by ring
      _ ≤ (1 - 12 * dt) ^ 2 * (200 + 2400 * dt) ^ 2 :=
          mul_le_mul_of_nonneg_left hw (sq_nonneg _)
      _ = ((1 - 12 * dt) * (200 + 2400 * dt)) ^ 2 := by ring
      _ ≤ 200 ^ 2 := by nlinarith
      _ = 40000 := by norm_num

lemma velFold_bound :
    ∀ (l : List ((ℚ × ℚ) × ℚ)) (v : ℚ × ℚ),
      (∀ x ∈ l, 0 ≤ x.2 ∧ x.1.1 ^ 2 + x.1.2 ^ 2 ≤ 1) →
      v.1 ^ 2 + v.2 ^ 2 ≤ 40000 →
      (l.foldl (fun w p => velStep w p.1 p.2) v).1 ^ 2 +
        (l.foldl (fun w p => velStep w p.1 p.2) v).2 ^ 2 ≤ 40000 := by
  intro l
  induction l with
  | nil => intro v _ hv; simpa using hv
  | cons x xs ih =>
    intro v hall hv
    simp only [List.foldl_cons]
    exact ih _ (fun y hy => hall y (List.mem_cons_of_mem _ hy))
      (velStep_preserves v x.1 x.2 (hall x (List.mem_cons_self _ _)).1
        (hall x (List.mem_cons_self _ _)).2 hv)

/-- C10: terminal-velocity invariant of the kinematic velocity update.
For any timestep dt ≥ 0 and intent of norm at most 1 (stated via squared
norms, which is equivalent for nonnegative bounds), a ship speed of at
most SHIP_ACCEL / SHIP_DRAG (= 200 px/s) is preserved by one velocity
update, and starting from rest every sequence of valid updates keeps the
speed at most SHIP_ACCEL / SHIP_DRAG. -/
theorem ship_terminal_velocity :
    (∀ (v i : ℚ × ℚ) (dt : ℚ), 0 ≤ dt → i.1 ^ 2 + i.2 ^ 2 ≤ 1 →
      v.1 ^ 2 + v.2 ^ 2 ≤ (SHIP_ACCEL / SHIP_DRAG) ^ 2 →
      (velStep v i dt).1 ^ 2 + (velStep v i dt).2 ^ 2 ≤ (SHIP_ACCEL / SHIP_DRAG) ^ 2) ∧
    (∀ l : List ((ℚ × ℚ) × ℚ),
      (∀ x ∈ l, 0 ≤ x.2 ∧ x.1.1 ^ 2 + x.1.2 ^ 2 ≤ 1) →
      (l.foldl (fun w p => velStep w p.1 p.2) (0, 0)).1 ^ 2 +
        (l.foldl (fun w p => velStep w p.1 p.2) (0, 0)).2 ^ 2 ≤
        (SHIP_ACCEL / SHIP_DRAG) ^ 2) := by
  have hc : ((SHIP_ACCEL / SHIP_DRAG : ℚ)) ^ 2 = 40000 := by
    norm_num [SHIP_ACCEL, SHIP_DRAG]
  simp only [hc]
  exact ⟨fun v i dt hdt hi hv => velStep_preserves v i dt hdt hi hv,
    fun l hl => velFold_bound l (0, 0) hl (by norm_num)⟩

/-- C10 witness: one step from rest under full rightward intent. -/
theorem ship_terminal_velocity_witness :
    (velStep (0, 0) (1, 0) (1/60)).1 ^ 2 + (velStep (0, 0) (1, 0) (1/60)).2 ^ 2 ≤
      (SHIP_ACCEL / SHIP_DRAG) ^ 2 :=
  ship_terminal_velocity.1 (0, 0) (1, 0) (1/60) (by norm_num) (by norm_num)
    (by norm_num [SHIP_ACCEL, SHIP_DRAG])

/-! ## Fire handling: bullet cap (C4) and muzzle position (C6) -/

lemma count_owner_append (a b : List Bullet) (o : Owner) :
    count_owner_bullets (a ++ b) o = count_owner_bullets a o + count_owner_bullets b o := by
  simp [count_owner_bullets, List.filter_append]

lemma handle_fire_other (mk : ℕ → PRand) (st : GameState) :
    handle_fire mk st Key.other = st := by
  unfold handle_fire
  split_ifs <;> simp_all

lemma handle_fire_lctrl_lt (mk : ℕ → PRand) (st : GameState)
    (h : count_owner_bullets st.bullets Owner.yellow < MAX_BULLETS) :
    (handle_fire mk st Key.lctrl).bullets =
      st.bullets ++ [{ rect := yellowBulletRect st.yellow_pos, vel_x := BULLET_SPEED,
                       owner := Owner.yellow, trail := [], life := 2 }] := by
  unfold handle_fire
  split_ifs <;> simp_all

lemma handle_fire_lctrl_ge (mk : ℕ → PRand) (st : GameState)
    (h : ¬ count_owner_bullets st.bullets Owner.yellow < MAX_BULLETS) :
    handle_fire mk st Key.lctrl = st := by
  unfold handle_fire
  split_ifs <;> simp_all

lemma handle_fire_rctrl_lt (mk : ℕ → PRand) (st : GameState)
    (h : count_owner_bullets st.bullets Owner.red < MAX_BULLETS) :
    (handle_fire mk st Key.rctrl).bullets =
      st.bullets ++ [{ rect := redBulletRect st.red_pos, vel_x := -BULLET_SPEED,
                       owner := Owner.red, trail := [], life := 2 }] := by
  unfold handle_fire
  split_ifs <;> simp_all

lemma handle_fire_rctrl_ge (mk : ℕ → PRand) (st : GameState)
    (h : ¬ count_owner_bullets st.bullets Owner.red < MAX_BULLETS) :
    handle_fire mk st Key.rctrl = st := by
  unfold handle_fire
  split_ifs <;> simp_all

lemma bulletStep_kept_le (yR rR : Rect) (dt : ℚ) (orl : ℤ × ℤ × ℚ × ℚ)
    (mk : ℕ → PRand) (ph : BPhase) (b : Bullet) (o : Owner) :
    count_owner_bullets (bulletStep yR rR dt orl mk ph b).kept o ≤
      count_owner_bullets ph.kept o + count_owner_bullets [b] o := by
  cases hfind : findHit ph.meteors (b.update dt).rect with
  | some i => simp [bulletStep, hfind]
  | none =>
    simp only [bulletStep, hfind]
    have hsingle : count_owner_bullets [b.update dt] o = count_owner_bullets [b] o := by
      cases hdec : decide (b.owner = o) <;>
        simp [count_owner_bullets, Bullet.update, List.filter, hdec]
    split_ifs <;> (try simp only [count_owner_append]) <;> omega

lemma bulletsLoop_kept_le (yR rR : Rect) (dt : ℚ) (ob : ℕ → ℤ × ℤ × ℚ × ℚ)
    (mk : ℕ → PRand) (o : Owner) :
    ∀ (bs : List Bullet) (n : ℕ) (ph : BPhase),
      count_owner_bullets (bulletsLoop yR rR dt ob mk bs n ph).kept o ≤
        count_owner_bullets ph.kept o + count_owner_bullets bs o := by
  intro bs
  induction bs with
  | nil => intro n ph; simp [bulletsLoop, count_owner_bullets]
  | cons b tl ih =>
    intro n ph
    rw [bulletsLoop]
    calc count_owner_bullets
          (bulletsLoop yR rR dt ob mk tl (n + 1) (bulletStep yR rR dt (ob n) mk ph b)).kept o
        ≤ count_owner_bullets (bulletStep yR rR dt (ob n) mk ph b).kept o +
            count_owner_bullets tl o := ih (n + 1) _
      _ ≤ (count_owner_bullets ph.kept o + count_owner_bullets [b] o) +
            count_owner_bullets tl o := by
          have := bulletStep_kept_le yR rR dt (ob n) mk ph b o
          omega
      _ = count_owner_bullets ph.kept o + count_owner_bullets (b :: tl) o := by
          have : count_owner_bullets (b :: tl) o =
              count_owner_bullets [b] o + count_owner_bullets tl o := by
            simpa using count_owner_append [b] tl o
          omega

/-- C4: per-owner live-bullet cap. A fire request while the owner already
holds MAX_BULLETS (or more) live bullets is a complete no-op; a fire
request strictly under the cap appends exactly one bullet of that owner;
hence a count ≤ MAX_BULLETS is preserved by any fire request, and the
bullet-update loop only ever removes bullets (per-owner count is
non-increasing there). -/
theorem bullet_cap (st : GameState) (k : Key) (o : Owner) (mk : ℕ → PRand) :
    (count_owner_bullets st.bullets o ≤ MAX_BULLETS →
      count_owner_bullets (handle_fire mk st k).bullets o ≤ MAX_BULLETS) ∧
    (MAX_BULLETS ≤ count_owner_bullets st.bullets Owner.yellow →
      handle_fire mk st Key.lctrl = st) ∧
    (MAX_BULLETS ≤ count_owner_bullets st.bullets Owner.red →
      handle_fire mk st Key.rctrl = st) ∧
    (count_owner_bullets st.bullets Owner.yellow < MAX_BULLETS →
      count_owner_bullets (handle_fire mk st Key.lctrl).bullets Owner.yellow =
        count_owner_bullets st.bullets Owner.yellow + 1) ∧
    (count_owner_bullets st.bullets Owner.red < MAX_BULLETS →
      count_owner_bullets (handle_fire mk st Key.rctrl).bullets Owner.red =
        count_owner_bullets st.bullets Owner.red + 1) ∧
    (∀ (yR rR : Rect) (dt : ℚ) (ob : ℕ → ℤ × ℤ × ℚ × ℚ) (bs : List Bullet) (n : ℕ),
      count_owner_bullets
        (bulletsLoop yR rR dt ob mk bs n
          (BPhase.mk st.meteors st.particles [] [])).kept o ≤
        count_owner_bullets bs o) := by
  refine ⟨?_, fun h => handle_fire_lctrl_ge mk st (by omega),
    fun h => handle_fire_rctrl_ge mk st (by omega), ?_, ?_, ?_⟩
  · intro hle
    cases k with
    | other => rw [handle_fire_other]; exact hle
    | lctrl =>
      by_cases h : count_owner_bullets st.bullets Owner.yellow < MAX_BULLETS
      · rw [handle_fire_lctrl_lt mk st h, count_owner_append]
        cases o with
        | yellow =>
          have h1 : count_owner_bullets
              [{ rect := yellowBulletRect st.yellow_pos, vel_x := BULLET_SPEED,
                 owner := Owner.yellow, trail := [], life := 2 }] Owner.yellow = 1 := by
            simp [count_owner_bullets]
          omega
        | red =>
          have h1 : count_owner_bullets
              [{ rect := yellowBulletRect st.yellow_pos, vel_x := BULLET_SPEED,
                 owner := Owner.yellow, trail := [], life := 2 }] Owner.red = 0 := by
            simp [count_owner_bullets]
          omega
      · rw [handle_fire_lctrl_ge mk st h]; exact hle
    | rctrl =>
      by_cases h : count_owner_bullets st.bullets Owner.red < MAX_BULLETS
      · rw [handle_fire_rctrl_lt mk st h, count_owner_append]
        cases o with
        | red =>
          have h1 : count_owner_bullets
              [{ rect := redBulletRect st.red_pos, vel_x := -BULLET_SPEED,
                 owner := Owner.red, trail := [], life := 2 }] Owner.red = 1 := by
            simp [count_owner_bullets]
          omega
        | yellow =>
          have h1 : count_owner_bullets
              [{ rect := redBulletRect st.red_pos, vel_x := -BULLET_SPEED,
                 owner := Owner.red, trail := [], life := 2 }] Owner.yellow = 0 := by
            simp [count_owner_bullets]
          omega
      · rw [handle_fire_rctrl_ge mk st h]; exact hle
  · intro h
    rw [handle_fire_lctrl_lt mk st h, count_owner_append]
    have h1 : count_owner_bullets
        [{ rect := yellowBulletRect st.yellow_pos, vel_x := BULLET_SPEED,
           owner := Owner.yellow, trail := [], life := 2 }] Owner.yellow = 1 := by
      simp [count_owner_bullets]
    omega
  · intro h
    rw [handle_fire_rctrl_lt mk st h, count_owner_append]
    have h1 : count_owner_bullets
        [{ rect := redBulletRect st.red_pos, vel_x := -BULLET_SPEED,
           owner := Owner.red, trail := [], life := 2 }] Owner.red = 1 := by
      simp [count_owner_bullets]
    omega
  · intro yR rR dt ob bs n
    simpa [count_owner_bullets] using
      bulletsLoop_kept_le yR rR dt ob mk o bs n
        (BPhase.mk st.meteors st.particles [] [])

/-- Particle-randomness oracle used in concrete states. -/
def fire_mk : ℕ → PRand := fun _ => ⟨1, 0, 1/2, 1/2, 1/2⟩

/-- A concrete quiescent mid-match state. -/
def fireState : GameState :=
  { yellow_pos := (120, 220), red_pos := (760, 250),
    yellow_vel := (0, 0), red_vel := (0, 0),
    yellow_health := 10, red_health := 10,
    yellow_health_display := 10, red_health_display := 10,
    bullets := [], meteors := [], particles := [],
    shake := {}, hit_flash := 0, pendingEvents := [] }

/-- The bullet the yellow ship spawns from `fireState`. -/
def capBullet : Bullet :=
  { rect := yellowBulletRect fireState.yellow_pos, vel_x := BULLET_SPEED,
    owner := Owner.yellow, trail := [], life := 2 }

/-- `fireState` with the yellow ship already at the bullet cap. -/
def capState : GameState :=
  { fireState with bullets := List.replicate 4 capBullet }

/-- C4 witness: firing at the cap is a no-op on a concrete capped state. -/
theorem bullet_cap_witness : handle_fire fire_mk capState Key.lctrl = capState :=
  (bullet_cap capState Key.lctrl Owner.yellow fire_mk).2.1
    (by with_unfolding_all decide)

/-- C6 counterexample: from `fireState` (yellow ship rect [120,200] x
[220,280], red ship rect [760,840] x [250,310]) the yellow bullet spawns
with horizontal extent [160,170] — its entire body ends 30 px short of
the yellow ship's leading edge x = 200 — and the red bullet spawns with
extent [710,720], entirely 40 px beyond the red ship's leading edge
x = 760. Neither bullet spawns at its ship's leading edge. -/
theorem bullet_spawn_inside_ship :
    ((handle_fire fire_mk fireState Key.lctrl).bullets.map (fun b => b.rect.x)) = [160] ∧
    (ship_rect fireState.yellow_pos).right = 200 ∧
    (160 : ℤ) + BULLET_W < 200 ∧
    ((handle_fire fire_mk fireState Key.rctrl).bullets.map (fun b => b.rect.x)) = [710] ∧
    (ship_rect fireState.red_pos).left = 760 ∧
    (710 : ℤ) + BULLET_W < 760 := by
  with_unfolding_all decide

/-- C6 amended: a successful fire appends exactly one bullet with full
lifetime 2.0s, empty trail, and horizontal velocity of magnitude
BULLET_SPEED signed toward the opposing side; the muzzle is vertically
centered on the ship, but horizontally it is the ship's midline for the
yellow ship (x = int(pos.x + SHIP_W // 2)) and SHIP_W // 2 + BULLET_W
ahead of the red ship's leading edge (x = int(pos.x - SHIP_W // 2 -
BULLET_W)) — not the ship's leading edge. -/
theorem bullet_spawn_amended (st : GameState) (mk : ℕ → PRand) :
    (count_owner_bullets st.bullets Owner.yellow < MAX_BULLETS →
      (handle_fire mk st Key.lctrl).bullets =
        st.bullets ++ [{ rect := yellowBulletRect st.yellow_pos, vel_x := BULLET_SPEED,
                         owner := Owner.yellow, trail := [], life := 2 }]) ∧
    (count_owner_bullets st.bullets Owner.red < MAX_BULLETS →
      (handle_fire mk st Key.rctrl).bullets =
        st.bullets ++ [{ rect := redBulletRect st.red_pos, vel_x := -BULLET_SPEED,
                         owner := Owner.red, trail := [], life := 2 }]) ∧
    (0 ≤ st.yellow_pos.2 →
      (yellowBulletRect st.yellow_pos).y + BULLET_H / 2 =
        (ship_rect st.yellow_pos).y + SHIP_H / 2) ∧
    (0 ≤ st.red_pos.2 →
      (redBulletRect st.red_pos).y + BULLET_H / 2 =
        (ship_rect st.red_pos).y + SHIP_H / 2) := by
  refine ⟨handle_fire_lctrl_lt mk st, handle_fire_rctrl_lt mk st, ?_, ?_⟩
  · intro hy
    have h28 : (0 : ℚ) ≤ st.yellow_pos.2 + 28 := by linarith
    simp only [yellowBulletRect, ship_rect, qtrunc, if_pos hy, if_pos h28]
    have hfl : ⌊st.yellow_pos.2 + 28⌋ = ⌊st.yellow_pos.2⌋ + 28 := by
      exact_mod_cast Int.floor_add_int st.yellow_pos.2 28
    rw [hfl]
    norm_num [BULLET_H, SHIP_H]
    omega
  · intro hy
    have h28 : (0 : ℚ) ≤ st.red_pos.2 + 28 := by linarith
    simp only [redBulletRect, ship_rect, qtrunc, if_pos hy, if_pos h28]
    have hfl : ⌊st.red_pos.2 + 28⌋ = ⌊st.red_pos.2⌋ + 28 := by
      exact_mod_cast Int.floor_add_int st.red_pos.2 28
    rw [hfl]
    norm_num [BULLET_H, SHIP_H]
    omega

/-- C6 witness: the amended spawn rule evaluated on `fireState`. -/
theorem bullet_spawn_amended_witness :
    (handle_fire fire_mk fireState Key.lctrl).bullets =
      fireState.bullets ++
        [{ rect := yellowBulletRect fireState.yellow_pos, vel_x := BULLET_SPEED,
           owner := Owner.yellow, trail := [], life := 2 }] :=
  (bullet_spawn_amended fireState fire_mk).1 (by with_unfolding_all decide)

/-! ## Health monotonicity (C2) and damage-event timing (C5) -/

lemma updateGame_red_health (st : GameState) (inp : FrameIn) :
    (updateGame st inp).red_health = st.red_health := rfl

lemma updateGame_yellow_health (st : GameState) (inp : FrameIn) :
    (updateGame st inp).yellow_health = st.yellow_health := rfl

lemma updateGame_shake (st : GameState) (inp : FrameIn) :
    (updateGame st inp).shake = st.shake := rfl

lemma handle_fire_red_health (mk : ℕ → PRand) (st : GameState) (k : Key) :
    (handle_fire mk st k).red_health = st.red_health := by
  unfold handle_fire
  dsimp only
  split_ifs <;> rfl

lemma handle_fire_yellow_health (mk : ℕ → PRand) (st : GameState) (k : Key) :
    (handle_fire mk st k).yellow_health = st.yellow_health := by
  unfold handle_fire
  dsimp only
  split_ifs <;> rfl

lemma processEvent_red_health (mk : ℕ → PRand) (st : GameState) (e : PEvent) :
    (processEvent mk st e).red_health = st.red_health ∨
    (processEvent mk st e).red_health = max 0 (st.red_health - 1) := by
  cases e with
  | keydown k => exact Or.inl (handle_fire_red_health mk st k)
  | hit ev =>
    cases ev with
    | yellowHit => exact Or.inl rfl
    | redHit => exact Or.inr rfl

lemma processEvent_yellow_health (mk : ℕ → PRand) (st : GameState) (e : PEvent) :
    (processEvent mk st e).yellow_health = st.yellow_health ∨
    (processEvent mk st e).yellow_health = max 0 (st.yellow_health - 1) := by
  cases e with
  | keydown k => exact Or.inl (handle_fire_yellow_health mk st k)
  | hit ev =>
    cases ev with
    | redHit => exact Or.inl rfl
    | yellowHit => exact Or.inr rfl

lemma processEvents_fold_red (mk : ℕ → PRand) :
    ∀ (evs : List PEvent) (st : GameState), 0 ≤ st.red_health →
      0 ≤ (evs.foldl (processEvent mk) st).red_health ∧
      (evs.foldl (processEvent mk) st).red_health ≤ st.red_health := by
  intro evs
  induction evs with
  | nil => intro st h; exact ⟨h, le_refl _⟩
  | cons e tl ih =>
    intro st h
    simp only [List.foldl_cons]
    have hstep : 0 ≤ (processEvent mk st e).red_health ∧
        (processEvent mk st e).red_health ≤ st.red_health := by
      rcases processEvent_red_health mk st e with he | he <;> rw [he] <;> omega
    obtain ⟨i1, i2⟩ := ih (processEvent mk st e) hstep.1
    exact ⟨i1, le_trans i2 hstep.2⟩

lemma processEvents_fold_yellow (mk : ℕ → PRand) :
    ∀ (evs : List PEvent) (st : GameState), 0 ≤ st.yellow_health →
      0 ≤ (evs.foldl (processEvent mk) st).yellow_health ∧
      (evs.foldl (processEvent mk) st).yellow_health ≤ st.yellow_health := by
  intro evs
  induction evs with
  | nil => intro st h; exact ⟨h, le_refl _⟩
  | cons e tl ih =>
    intro st h
    simp only [List.foldl_cons]
    have hstep : 0 ≤ (processEvent mk st e).yellow_health ∧
        (processEvent mk st e).yellow_health ≤ st.yellow_health := by
      rcases processEvent_yellow_health mk st e with he | he <;> rw [he] <;> omega
    obtain ⟨i1, i2⟩ := ih (processEvent mk st e) hstep.1
    exact ⟨i1, le_trans i2 hstep.2⟩

lemma frame_red_health (st : GameState) (inp : FrameIn) (h : 0 ≤ st.red_health) :
    0 ≤ (frame st inp).red_health ∧ (frame st inp).red_health ≤ st.red_health := by
  obtain ⟨h1, h2⟩ := processEvents_fold_red inp.prand
    (st.pendingEvents.map PEvent.hit ++ inp.keydowns.map PEvent.keydown)
    { st with pendingEvents := [] } h
  simp only [frame]
  split
  · exact ⟨h1, h2⟩
  · rw [updateGame_red_health]
    exact ⟨h1, h2⟩

lemma frame_yellow_health (st : GameState) (inp : FrameIn) (h : 0 ≤ st.yellow_health) :
    0 ≤ (frame st inp).yellow_health ∧ (frame st inp).yellow_health ≤ st.yellow_health := by
  obtain ⟨h1, h2⟩ := processEvents_fold_yellow inp.prand
    (st.pendingEvents.map PEvent.hit ++ inp.keydowns.map PEvent.keydown)
    { st with pendingEvents := [] } h
  simp only [frame]
  split
  · exact ⟨h1, h2⟩
  · rw [updateGame_yellow_health]
    exact ⟨h1, h2⟩

lemma runFold_red :
    ∀ (inputs : List FrameIn) (st : GameState), 0 ≤ st.red_health →
      0 ≤ (inputs.foldl frame st).red_health ∧
      (inputs.foldl frame st).red_health ≤ st.red_health := by
  intro inputs
  induction inputs with
  | nil => intro st h; exact ⟨h, le_refl _⟩
  | cons i tl ih =>
    intro st h
    simp only [List.foldl_cons]
    obtain ⟨s1, s2⟩ := frame_red_health st i h
    obtain ⟨i1, i2⟩ := ih (frame st i) s1
    exact ⟨i1, le_trans i2 s2⟩

lemma runFold_yellow :
    ∀ (inputs : List FrameIn) (st : GameState), 0 ≤ st.yellow_health →
      0 ≤ (inputs.foldl frame st).yellow_health ∧
      (inputs.foldl frame st).yellow_health ≤ st.yellow_health := by
  intro inputs
  induction inputs with
  | nil => intro st h; exact ⟨h, le_refl _⟩
  | cons i tl ih =>
    intro st h
    simp only [List.foldl_cons]
    obtain ⟨s1, s2⟩ := frame_yellow_health st i h
    obtain ⟨i1, i2⟩ := ih (frame st i) s1
    exact ⟨i1, le_trans i2 s2⟩

/-- C2: every ship-damaging event handler decrements that ship's health
by exactly 1 with a floor at 0 and leaves the other ship's health alone;
the frame update itself never touches health; and along every match
trace (any frame-input sequence from the initial state) both healths
stay nonnegative and are monotonically non-increasing as the trace is
extended. -/
theorem health_monotone_nonneg :
    (∀ (st : GameState) (mk : ℕ → PRand),
      (processEvent mk st (PEvent.hit Ev.redHit)).red_health = max 0 (st.red_health - 1) ∧
      (processEvent mk st (PEvent.hit Ev.yellowHit)).yellow_health =
        max 0 (st.yellow_health - 1) ∧
      (processEvent mk st (PEvent.hit Ev.redHit)).yellow_health = st.yellow_health ∧
      (processEvent mk st (PEvent.hit Ev.yellowHit)).red_health = st.red_health) ∧
    (∀ (st : GameState) (inp : FrameIn),
      (updateGame st inp).red_health = st.red_health ∧
      (updateGame st inp).yellow_health = st.yellow_health) ∧
    (∀ (ms : List Meteor) (inputs more : List FrameIn),
      0 ≤ (runMatch ms inputs).red_health ∧ 0 ≤ (runMatch ms inputs).yellow_health ∧
      (runMatch ms (inputs ++ more)).red_health ≤ (runMatch ms inputs).red_health ∧
      (runMatch ms (inputs ++ more)).yellow_health ≤ (runMatch ms inputs).yellow_health) := by
  refine ⟨fun st mk => ⟨rfl, rfl, rfl, rfl⟩, fun st inp => ⟨rfl, rfl⟩, ?_⟩
  intro ms inputs more
  have hinit : (0 : ℤ) ≤ (initState ms).red_health := by norm_num [initState]
  have hinitY : (0 : ℤ) ≤ (initState ms).yellow_health := by norm_num [initState]
  obtain ⟨r1, _⟩ := runFold_red inputs (initState ms) hinit
  obtain ⟨y1, _⟩ := runFold_yellow inputs (initState ms) hinitY
  have happ : runMatch ms (inputs ++ more) = more.foldl frame (runMatch ms inputs) := by
    simp [runMatch, List.foldl_append]
  refine ⟨r1, y1, ?_, ?_⟩
  · rw [happ]
    exact (runFold_red more (runMatch ms inputs) r1).2
  · rw [happ]
    exact (runFold_yellow more (runMatch ms inputs) y1).2

lemma spawn_particles_grows (ps : List Particle) (pos : ℤ × ℤ) (n : ℕ)
    (color : Color) (speed life size : ℚ) (mk : ℕ → PRand)
    (h : ps.length ≤ MAX_PARTICLES) :
    ps.length < (spawn_particles ps pos (n + 1) color speed life size mk).length := by
  rw [spawn_particles]
  rw [if_neg (by omega)]
  obtain ⟨t, ht⟩ := spawn_particles_extends pos color speed life size mk n
    (ps ++ [mkParticle pos color speed life size (mk ps.length)])
  rw [ht]
  simp

/-- A state with one yellow bullet one tick away from the red ship's
hitbox and no meteors, used to exercise the bullet-hits-ship path. -/
def hitBullet : Bullet :=
  { rect := { x := 750, y := 270, w := 10, h := 5 }, vel_x := 850,
    owner := Owner.yellow, trail := [], life := 2 }

def hitState : GameState := { fireState with bullets := [hitBullet] }

/-- Inputs for one 1/60 s frame with no key activity. -/
def hitInput : FrameIn :=
  { dt := 1/60, yIntent := (0, 0), rIntent := (0, 0), keydowns := [],
    obull := fun _ => (100, 100, 0, 0), omet := fun _ => (100, 100),
    prand := fire_mk }

/-- C5 counterexample: during the frame in which the yellow bullet
collides with the red ship, the RED_HIT message is only enqueued — at the
end of that frame the red ship's health is unchanged (10) and the screen
shake is still idle. The message is consumed by the event loop of the
NEXT frame, not the same frame. -/
theorem ship_damage_not_same_frame :
    (frame hitState hitInput).pendingEvents = [Ev.redHit] ∧
    (frame hitState hitInput).red_health = hitState.red_health ∧
    (frame hitState hitInput).shake.timer = hitState.shake.timer := by
  with_unfolding_all decide

/-- C5 amended: a bullet-ship collision in frame N enqueues a damage
message which the fixed event-processing point at the start of frame
N + 1 consumes: consuming RED_HIT sets the red health to
max 0 (health - 1), activates the screen shake (timer = 0.35 > 0) and
spawns at least one burst particle provided the particle total is at or
under the cap; the update phase itself (frame N) never changes health;
and a frame whose pending queue holds exactly the RED_HIT message ends
with the decremented health and an active shake. -/
theorem ship_damage_next_frame (st : GameState) (mk : ℕ → PRand) (inp : FrameIn) :
    ((processEvent mk st (PEvent.hit Ev.redHit)).red_health =
        max 0 (st.red_health - 1) ∧
      (processEvent mk st (PEvent.hit Ev.redHit)).shake.timer = 35/100 ∧
      (st.particles.length ≤ MAX_PARTICLES →
        st.particles.length <
          (processEvent mk st (PEvent.hit Ev.redHit)).particles.length)) ∧
    ((updateGame st inp).red_health = st.red_health ∧
      (updateGame st inp).yellow_health = st.yellow_health) ∧
    (st.pendingEvents = [Ev.redHit] → inp.keydowns = [] →
      (frame st inp).red_health = max 0 (st.red_health - 1) ∧
      (frame st inp).shake.timer = 35/100) := by
  refine ⟨⟨rfl, rfl, ?_⟩, ⟨rfl, rfl⟩, ?_⟩
  · intro h
    exact spawn_particles_grows st.particles _ 21 _ _ _ _ mk h
  · intro hp hk
    simp only [frame, hp, hk]
    dsimp only [List.map, List.foldl, List.append_nil, List.nil_append]
    split
    · exact ⟨rfl, rfl⟩
    · rw [updateGame_red_health, updateGame_shake]
      exact ⟨rfl, rfl⟩

/-- `fireState` with the RED_HIT message already pending. -/
def pendState : GameState := { fireState with pendingEvents := [Ev.redHit] }

/-- C5 witness: the amended consumption rule evaluated on `pendState`. -/
theorem ship_damage_next_frame_witness :
    (frame pendState hitInput).red_health = max 0 (pendState.red_health - 1) :=
  ((ship_damage_next_frame pendState fire_mk hitInput).2.2
    (by with_unfolding_all decide) (by with_unfolding_all decide)).1

/-! ## Bullet removal priority (C1) -/

lemma findHit_isSome_iff (ms : List Meteor) (r : Rect) :
    (findHit ms r).isSome = true ↔ ∃ m ∈ ms, collide m.rect r = true := by
  induction ms with
  | nil => simp [findHit]
  | cons m tl ih =>
    by_cases h : collide m.rect r = true
    · simp [findHit, h]
    · simp only [findHit, if_neg h]
      cases hf : findHit tl r <;> rw [hf] at ih <;> simp_all

/-- C1: processing of one live bullet in the update loop follows a strict
first-match-wins priority. (a) If the moved bullet overlaps any meteor
(the existential is equivalent to the meteor search succeeding), the
bullet is dropped, impact particles are emitted, the first overlapping
meteor is relocated, and NO damage event is raised — a bullet that hits a
meteor never also damages a ship that frame. (b) Otherwise, overlapping
the non-owning ship's hitbox drops the bullet and raises exactly one
damage event against that ship, with meteors and particles untouched.
(c) Otherwise an expired or out-of-bounds bullet is dropped silently
(state completely unchanged). (d) Otherwise the bullet is kept. -/
theorem bullet_removal_priority (yR rR : Rect) (dt : ℚ) (orl : ℤ × ℤ × ℚ × ℚ)
    (mk : ℕ → PRand) (ph : BPhase) (b : Bullet) :
    ((findHit ph.meteors (b.update dt).rect).isSome = true ↔
      ∃ m ∈ ph.meteors, collide m.rect (b.update dt).rect = true) ∧
    (∀ i, findHit ph.meteors (b.update dt).rect = some i →
      (bulletStep yR rR dt orl mk ph b).kept = ph.kept ∧
      (bulletStep yR rR dt orl mk ph b).events = ph.events ∧
      (bulletStep yR rR dt orl mk ph b).particles =
        spawn_particles ph.particles (b.update dt).rect.center 18 (200, 200, 200)
          160 (7/10) (19/5) mk ∧
      (bulletStep yR rR dt orl mk ph b).meteors = relocAt ph.meteors i orl) ∧
    (findHit ph.meteors (b.update dt).rect = none →
      (b.update dt).owner = Owner.yellow → collide rR (b.update dt).rect = true →
      bulletStep yR rR dt orl mk ph b = { ph with events := ph.events ++ [Ev.redHit] }) ∧
    (findHit ph.meteors (b.update dt).rect = none →
      (b.update dt).owner = Owner.red → collide yR (b.update dt).rect = true →
      bulletStep yR rR dt orl mk ph b = { ph with events := ph.events ++ [Ev.yellowHit] }) ∧
    (findHit ph.meteors (b.update dt).rect = none →
      ¬((b.update dt).owner = Owner.yellow ∧ collide rR (b.update dt).rect = true) →
      ¬((b.update dt).owner = Owner.red ∧ collide yR (b.update dt).rect = true) →
      (b.update dt).is_dead = true →
      bulletStep yR rR dt orl mk ph b = ph) ∧
    (findHit ph.meteors (b.update dt).rect = none →
      ¬((b.update dt).owner = Owner.yellow ∧ collide rR (b.update dt).rect = true) →
      ¬((b.update dt).owner = Owner.red ∧ collide yR (b.update dt).rect = true) →
      (b.update dt).is_dead = false →
      bulletStep yR rR dt orl mk ph b = { ph with kept := ph.kept ++ [b.update dt] }) := by
  refine ⟨findHit_isSome_iff ph.meteors (b.update dt).rect, ?_, ?_, ?_, ?_, ?_⟩
  · intro i hfind
    simp [bulletStep, hfind]
  · intro hfind hown hcol
    simp only [bulletStep, hfind]
    rw [if_pos ⟨hown, hcol⟩]
  · intro hfind hown hcol
    simp only [bulletStep, hfind]
    rw [if_neg (by simp [hown]), if_pos ⟨hown, hcol⟩]
  · intro hfind h1 h2 hdead
    simp only [bulletStep, hfind]
    rw [if_neg h1, if_neg h2, if_pos hdead]
  · intro hfind h1 h2 halive
    simp only [bulletStep, hfind]
    rw [if_neg h1, if_neg h2, if_neg (by simp [halive])]

/-- A stationary meteor overlapping `c1Bullet` after one tick. -/
def c1Meteor : Meteor :=
  { rect := { x := 100, y := 100, w := 50, h := 50 }, vx := 0, vy := 0 }

def c1Phase : BPhase :=
  { meteors := [c1Meteor], particles := [], events := [], kept := [] }

def c1Bullet : Bullet :=
  { rect := { x := 80, y := 110, w := 10, h := 5 }, vel_x := 850,
    owner := Owner.yellow, trail := [], life := 2 }

/-- C1 witness: a bullet that hits a meteor raises no damage event. -/
theorem bullet_removal_priority_witness :
    (bulletStep (ship_rect fireState.yellow_pos) (ship_rect fireState.red_pos)
      (1/60) (100, 100, 0, 0) fire_mk c1Phase c1Bullet).events = c1Phase.events :=
  ((bullet_removal_priority (ship_rect fireState.yellow_pos)
      (ship_rect fireState.red_pos) (1/60) (100, 100, 0, 0) fire_mk c1Phase
      c1Bullet).2.1 0 (by with_unfolding_all decide)).2.1

end SpaceFight
